import Mathlib

/-!
Verification of the client-side RPC request governor of DaoGovLite.

The embedded code lives in two files of the repository:
* Frontend/src/hooks/use-web3.ts : the MetaMask request interceptor
  (response cache, pending-request coalescing, debouncing, circuit
  breaker, periodic cache sweep, manual and automatic breaker reset).
* Frontend/src/contexts/Web3Context.tsx : the adaptive call-rate
  tracker trackRPCCall with its backoff value.

JavaScript numbers carrying backoff values are modelled as rationals;
timestamps and durations are natural numbers of milliseconds.  Promises
and timers are identified by natural-number ids allocated from a
monotone counter, and the asynchronous continuations attached to the
underlying provider call on each code path are embedded as explicit
settlement functions on the interceptor state.
-/

set_option autoImplicit false

namespace DaoGov

/-! ### Association lists

JavaScript object maps (requestCache, pendingRequests, debouncedCalls,
rpcCallsByType) are embedded as association lists with at most one
binding per key: assignment replaces the binding, delete removes it. -/

variable {α : Type} {β : Type}

/-- Lookup of a key in an association list (JS property read). -/
def lookupKV [DecidableEq α] : List (α × β) → α → Option β
  | [], _ => none
  | kv :: t, a => if kv.1 = a then some kv.2 else lookupKV t a

/-- Remove every binding of a key (JS delete). -/
def eraseKV [DecidableEq α] (a : α) : List (α × β) → List (α × β)
  | [] => []
  | kv :: t => if kv.1 = a then eraseKV a t else kv :: eraseKV a t

/-- Bind a key to a value, replacing any previous binding (JS assignment). -/
def insertKV [DecidableEq α] (a : α) (b : β) (l : List (α × β)) : List (α × β) :=
  (a, b) :: eraseKV a l

theorem lookupKV_insertKV [DecidableEq α] (a : α) (b : β) (l : List (α × β)) :
    lookupKV (insertKV a b l) a = some b := by
  simp [insertKV, lookupKV]

theorem lookupKV_eraseKV [DecidableEq α] (a : α) (l : List (α × β)) :
    lookupKV (eraseKV a l) a = none := by
  induction l with
  | nil => rfl
  | cons kv t ih =>
    by_cases h : kv.1 = a
    · simpa [eraseKV, h]
    · simpa [eraseKV, lookupKV, h]

theorem lookupKV_mem [DecidableEq α] {l : List (α × β)} {a : α} {b : β}
    (h : lookupKV l a = some b) : (a, b) ∈ l := by
  induction l with
  | nil => simp [lookupKV] at h
  | cons kv t ih =>
    unfold lookupKV at h
    split at h
    · rename_i heq
      obtain rfl : kv.2 = b := Option.some.inj h
      rw [← heq]
      exact List.mem_cons_self _ _
    · exact List.mem_cons_of_mem _ (ih h)

theorem mem_of_mem_eraseKV [DecidableEq α] {l : List (α × β)} {a : α} {e : α × β}
    (h : e ∈ eraseKV a l) : e ∈ l := by
  induction l with
  | nil => simp [eraseKV] at h
  | cons kv t ih =>
    unfold eraseKV at h
    split at h
    · exact List.mem_cons_of_mem _ (ih h)
    · rcases List.mem_cons.mp h with heq | hm
      · rw [heq]; exact List.mem_cons_self _ _
      · exact List.mem_cons_of_mem _ (ih hm)

theorem ne_of_mem_eraseKV [DecidableEq α] {l : List (α × β)} {a : α} {e : α × β}
    (h : e ∈ eraseKV a l) : e.1 ≠ a := by
  induction l with
  | nil => simp [eraseKV] at h
  | cons kv t ih =>
    unfold eraseKV at h
    split at h
    · exact ih h
    · rcases List.mem_cons.mp h with heq | hm
      · rename_i hne
        rw [heq]; exact hne
      · exact ih hm

/-! ### JavaScript values and truthiness

The interceptor stores arbitrary provider results in its cache and, in
the circuit-breaker-open branch, tests the *value* for truthiness
(line 115 of use-web3.ts: requestCache[cacheKey] && requestCache[cacheKey].value). -/

/-- A JavaScript value as far as the governor observes it: the
interceptor only stores, returns and truthiness-tests results. -/
inductive JSVal where
  | vnull : JSVal
  | vbool : Bool → JSVal
  | vnum : Int → JSVal
  | vstr : String → JSVal
  | vobj : Nat → JSVal
deriving DecidableEq, Repr

/-- JavaScript truthiness of a stored value. -/
def JSVal.truthy : JSVal → Bool
  | .vnull => false
  | .vbool b => b
  | .vnum n => decide (n ≠ 0)
  | .vstr s => decide (s ≠ "")
  | .vobj _ => true

/-! ### Cache keys

Cache keys are the strings method ++ "-" ++ JSON.stringify(params),
embedded as character lists so that the sweep, which recovers the
method name by splitting the key at the first dash
(key.split(Char.ofNat 45)[0] on line 209), can be reasoned about. -/

/-- A cache key: the character list of the string built on line 89. -/
abbrev Key := List Char

/-- cacheKey from line 89 of use-web3.ts. -/
def mkKey (method paramsJson : String) : Key :=
  method.data ++ Char.ofNat 45 :: paramsJson.data

/-- The method-name part of a key, as the sweep recovers it on line 209. -/
def keyMethod : Key → List Char
  | [] => []
  | c :: t => if c = Char.ofNat 45 then [] else c :: keyMethod t

/-! ### The interceptor constants of use-web3.ts -/

/-- CACHE_TIMES (lines 18-23), looked up with default fallback. -/
def cacheTimeOf (m : List Char) : Nat :=
  if m = "eth_accounts".data then 10000
  else if m = "eth_chainId".data then 15000
  else if m = "eth_call".data then 5000
  else 3000

/-- CACHE_TIMES[method] || CACHE_TIMES.default on a string method name. -/
def CACHE_TIMES (method : String) : Nat := cacheTimeOf method.data

/-- RPC_LIMITS (lines 64-69), looked up with default fallback. -/
def rpcLimitOf (method : String) : Nat :=
  if method = "eth_accounts" then 5
  else if method = "eth_chainId" then 5
  else if method = "eth_call" then 12
  else 20

/-- RESET_PERIOD (line 72). -/
def RESET_PERIOD : Nat := 10000

/-- The read-type methods of the circuit-breaker branch (line 114). -/
def isReadMethod (method : String) : Bool :=
  method = "eth_accounts" || method = "eth_chainId" || method = "eth_call"

/-! ### Interceptor state -/

/-- A requestCache entry (lines 9-12). -/
structure CacheEntry where
  value : JSVal
  timestamp : Nat
deriving DecidableEq, Repr

/-- The module-level mutable state of use-web3.ts that the intercepted
request function reads and writes: requestCache, pendingRequests,
debouncedCalls (timer id and promise id per debounce key), the call
counters, and the circuit-breaker flag.  nextId allocates promise and
timer identities. -/
structure InterceptState where
  cache : List (Key × CacheEntry)
  pending : List (Key × Nat)
  debounced : List (Key × (Nat × Nat))
  rpcCallCount : Nat
  rpcCallsByType : List (String × Nat)
  lastRpcReset : Nat
  circuitBreakerActive : Bool
  nextId : Nat
deriving DecidableEq, Repr

/-- The module-load state: empty maps, zero counters, breaker closed. -/
def initInterceptState : InterceptState :=
  { cache := [], pending := [], debounced := [], rpcCallCount := 0,
    rpcCallsByType := [], lastRpcReset := 0, circuitBreakerActive := false,
    nextId := 0 }

/-- rpcCallsByType[method] || 0 : a missing counter reads as zero. -/
def countOf (l : List (String × Nat)) (method : String) : Nat :=
  (lookupKV l method).getD 0

/-- rpcCallsByType[method] = (rpcCallsByType[method] || 0) + 1 (line 94). -/
def bumpCount (l : List (String × Nat)) (method : String) : List (String × Nat) :=
  insertKV method (countOf l method + 1) l

/-- Lines 159-161: read the cache, honouring the method-specific TTL.
Returns the stored value when the entry is fresh, otherwise acts as a
miss. -/
def cacheGet (c : List (Key × CacheEntry)) (method : String) (k : Key) (now : Nat) :
    Option JSVal :=
  match lookupKV c k with
  | some e => if now - e.timestamp < CACHE_TIMES method then some e.value else none
  | none => none

/-- Line 183 (and 127, 173): store a result with its timestamp. -/
def cacheSet (c : List (Key × CacheEntry)) (k : Key) (v : JSVal) (t : Nat) :
    List (Key × CacheEntry) :=
  insertKV k { value := v, timestamp := t } c

/-- What the intercepted request function returns to its caller. -/
inductive CallResult where
  /-- Breaker open, read method, truthy cached value: resolved at once (line 117). -/
  | openCached : JSVal → CallResult
  /-- Breaker open, read method, no usable cache: promise settled after the
  3000 ms throttle (lines 122-135); carries the new promise id. -/
  | openThrottled : Nat → CallResult
  /-- Breaker open, non-read method: promise settled after the 1000 ms delay
  (lines 140-149). -/
  | openDelayed : Nat → CallResult
  /-- The in-flight promise already stored for this key (line 154). -/
  | sharedPending : Nat → CallResult
  /-- A fresh cache hit, resolved at once (line 160). -/
  | cachedFresh : JSVal → CallResult
  /-- The debounce path (lines 169-176): new promise id, and the timer id it
  cancelled, if a debounced call for the key was pending. -/
  | debounced : Nat → Option Nat → CallResult
  /-- The direct path (lines 180-197): the underlying request is issued now
  and recorded in the pending map under the new promise id. -/
  | freshRequest : Nat → CallResult
deriving DecidableEq, Repr

/-- True exactly when the result's path called the underlying provider
request synchronously (only the direct path does). -/
def invokesUnderlyingNow : CallResult → Bool
  | .freshRequest _ => true
  | _ => false

/-- The setTimeout delay, if any, after which the result's path invokes
the underlying provider request (3000 ms on line 134, 1000 ms on line
148, 1500 ms on line 176). -/
def schedulesUnderlying : CallResult → Option Nat
  | .openThrottled _ => some 3000
  | .openDelayed _ => some 1000
  | .debounced _ _ => some 1500
  | _ => none

/-- Lines 93-109: bump the total and per-method counters, then reset all
counters when more than RESET_PERIOD has elapsed since the last reset. -/
def tickCounters (s : InterceptState) (method : String) (now : Nat) : InterceptState :=
  let s1 := { s with rpcCallCount := s.rpcCallCount + 1,
                     rpcCallsByType := bumpCount s.rpcCallsByType method }
  if RESET_PERIOD < now - s1.lastRpcReset then
    { s1 with rpcCallCount := 0, rpcCallsByType := [], lastRpcReset := now }
  else s1

/-- Lines 111-197: route a counted call.  Mirrors the source order:
circuit-breaker branch first, then pending map, then cache, then the
per-method limit with debouncing, then the direct request. -/
def route (s : InterceptState) (method paramsJson : String) (now : Nat) :
    InterceptState × CallResult :=
  let cacheKey := mkKey method paramsJson
  if s.circuitBreakerActive then
    if isReadMethod method then
      match lookupKV s.cache cacheKey with
      | some e =>
        if e.value.truthy then (s, .openCached e.value)
        else ({ s with nextId := s.nextId + 1 }, .openThrottled s.nextId)
      | none => ({ s with nextId := s.nextId + 1 }, .openThrottled s.nextId)
    else
      ({ s with nextId := s.nextId + 1 }, .openDelayed s.nextId)
  else
    match lookupKV s.pending cacheKey with
    | some pid => (s, .sharedPending pid)
    | none =>
      match cacheGet s.cache method cacheKey now with
      | some v => (s, .cachedFresh v)
      | none =>
        if rpcLimitOf method < countOf s.rpcCallsByType method then
          let dk := "debounce-".data ++ cacheKey
          let cancelled := (lookupKV s.debounced dk).map Prod.fst
          ({ s with debounced := insertKV dk (s.nextId + 1, s.nextId) s.debounced,
                    nextId := s.nextId + 2 }, .debounced s.nextId cancelled)
        else
          ({ s with pending := insertKV cacheKey s.nextId s.pending,
                    nextId := s.nextId + 1 }, .freshRequest s.nextId)

/-- The intercepted window.ethereum.request of lines 86-198: count the
call, then route it. -/
def intercept (s : InterceptState) (method paramsJson : String) (now : Nat) :
    InterceptState × CallResult :=
  route (tickCounters s method now) method paramsJson now

/-! ### Settlement of the underlying provider call

Each code path that reaches the underlying request attaches its own
continuations.  A settlement takes the outcome of the underlying call
and produces the new interceptor state together with the outcome
delivered to the original caller. -/

/-- The outcome of a promise: resolution with a value, or rejection
with an error (errors are opaque to the governor and carried by id). -/
inductive Outcome where
  | resolved : JSVal → Outcome
  | rejected : Nat → Outcome
deriving DecidableEq, Repr

/-- Lines 180-193: settlement of the direct path.  Success caches the
result and is passed through; failure is re-thrown; the finally block
removes the pending entry in both cases. -/
def settleFresh (s : InterceptState) (k : Key) (o : Outcome) (now : Nat) :
    InterceptState × Outcome :=
  match o with
  | .resolved v =>
    ({ s with cache := cacheSet s.cache k v now, pending := eraseKV k s.pending },
     .resolved v)
  | .rejected e =>
    ({ s with pending := eraseKV k s.pending }, .rejected e)

/-- Lines 123-134: settlement of the breaker-open read throttle path.
Success caches the result and resolves with it; an error is swallowed
and the promise resolves with null. -/
def settleOpenRead (s : InterceptState) (k : Key) (o : Outcome) (now : Nat) :
    InterceptState × Outcome :=
  match o with
  | .resolved v => ({ s with cache := cacheSet s.cache k v now }, .resolved v)
  | .rejected _ => (s, .resolved .vnull)

/-- Lines 141-148: settlement of the breaker-open non-read delay path.
The result is passed through without caching; an error is swallowed and
the promise resolves with null. -/
def settleOpenOther (s : InterceptState) (o : Outcome) : InterceptState × Outcome :=
  match o with
  | .resolved v => (s, .resolved v)
  | .rejected _ => (s, .resolved .vnull)

/-- Lines 48-57 with the fn of lines 170-175: settlement of a debounce
timer that fired.  Success caches the result and resolves; failure
rejects; the debouncedCalls entry for the debounce key dk is deleted in
both cases. -/
def settleDebounced (s : InterceptState) (k dk : Key) (o : Outcome) (now : Nat) :
    InterceptState × Outcome :=
  match o with
  | .resolved v =>
    ({ s with cache := cacheSet s.cache k v now, debounced := eraseKV dk s.debounced },
     .resolved v)
  | .rejected e =>
    ({ s with debounced := eraseKV dk s.debounced }, .rejected e)

/-! ### Circuit-breaker transitions (useWeb3, lines 229-300) -/

/-- Lines 256-265: the auto-recovery timeout callback.  It closes the
breaker and clears the cache; the call counters are untouched. -/
def autoRecover (s : InterceptState) : InterceptState :=
  { s with circuitBreakerActive := false, cache := [] }

/-- Lines 286-300: the manual resetCircuitBreaker.  It closes the
breaker, clears the cache and resets the call counters. -/
def resetCircuitBreaker (s : InterceptState) (now : Nat) : InterceptState :=
  { s with circuitBreakerActive := false, cache := [],
           rpcCallCount := 0, rpcCallsByType := [], lastRpcReset := now }

/-- key.includes(pat): pat occurs as a contiguous run of key. -/
def hasInfix (pat : Key) : Key → Bool
  | [] => pat.isEmpty
  | c :: t => pat.isPrefixOf (c :: t) || hasInfix pat t

/-- Lines 229-268: one run of the overload monitor.  When the call rate
is high it first evicts non-essential cache entries; when it is extreme
it opens the breaker and schedules autoRecover; the returned option is
the delay of that scheduled recovery. -/
def checkOverload (s : InterceptState) (now : Nat) : InterceptState × Option Nat :=
  if 30 < s.rpcCallCount ∧ now - s.lastRpcReset < 5000 ∧ s.circuitBreakerActive = false then
    let s1 := { s with cache := s.cache.filter (fun kv =>
                  hasInfix "eth_accounts".data kv.1 ||
                  hasInfix "eth_chainId".data kv.1) }
    if 50 < s.rpcCallCount ∧ now - s.lastRpcReset < 3000 then
      ({ s1 with circuitBreakerActive := true }, some 15000)
    else (s1, none)
  else (s, none)

/-! ### The periodic cache sweep (lines 204-216) -/

/-- One run of the setInterval cleanup: delete every entry strictly
older than three times the cache time of the method recovered from the
key. -/
def cleanupSweep (now : Nat) : List (Key × CacheEntry) → List (Key × CacheEntry)
  | [] => []
  | kv :: t =>
    if 3 * cacheTimeOf (keyMethod kv.1) < now - kv.2.timestamp then cleanupSweep now t
    else kv :: cleanupSweep now t

/-! ### The debounce machinery in isolation (lines 41-61)

debounceRpcCall allocates a fresh promise and arms a timer whose
callback settles that promise; a later call for the same key clears the
previous timer, so the cancelled callback can never run.  Armed timers
record the timer id, the promise it would settle and the key whose
entry its callback would delete. -/

/-- The state of debouncedCalls together with the armed timers and the
set of promises that have been settled (resolved or rejected). -/
structure DebounceState where
  entries : List (Key × (Nat × Nat))
  armed : List (Nat × (Nat × Key))
  settled : List Nat
  nextId : Nat
deriving DecidableEq, Repr

/-- The module-load debounce state. -/
def initDebounceState : DebounceState :=
  { entries := [], armed := [], settled := [], nextId := 0 }

/-- clearTimeout of the timer stored for a key (line 44): the timer of
the current debouncedCalls entry for the key, if any, is disarmed. -/
def armedAfterClear (s : DebounceState) (k : Key) : List (Nat × (Nat × Key)) :=
  match lookupKV s.entries k with
  | some tp => eraseKV tp.1 s.armed
  | none => s.armed

/-- Lines 41-61: cancel the pending timer for the key if any, then
store a fresh timer and promise for it.  Returns the new state, the
promise id handed to the caller and the timer id. -/
def debounceRpcCall (s : DebounceState) (k : Key) : DebounceState × Nat × Nat :=
  ({ entries := insertKV k (s.nextId, s.nextId + 1) s.entries,
     armed := (s.nextId, (s.nextId + 1, k)) :: armedAfterClear s k,
     settled := s.settled,
     nextId := s.nextId + 2 }, s.nextId + 1, s.nextId)

/-- Firing of an armed timer: its callback settles its own promise
(lines 50-56, resolve on success, reject on error) and deletes the
debouncedCalls entry of its key.  A cleared timer is not armed and
firing it does nothing. -/
def fireTimer (s : DebounceState) (tid : Nat) : DebounceState :=
  match lookupKV s.armed tid with
  | some pk =>
    { s with armed := eraseKV tid s.armed,
             settled := pk.1 :: s.settled,
             entries := eraseKV pk.2 s.entries }
  | none => s

/-- An event of the debounce subsystem: a further debounced call, or a
timer firing. -/
inductive DbEvent where
  | call : Key → DbEvent
  | fire : Nat → DbEvent
deriving DecidableEq, Repr

/-- One debounce event. -/
def dbStep (s : DebounceState) : DbEvent → DebounceState
  | .call k => (debounceRpcCall s k).1
  | .fire t => fireTimer s t

/-- A sequence of debounce events. -/
def dbRun (s : DebounceState) (evs : List DbEvent) : DebounceState :=
  evs.foldl dbStep s

/-- Well-formedness of a debounce state: every id it mentions was
allocated below nextId. -/
def DbWF (s : DebounceState) : Prop :=
  (∀ e ∈ s.armed, e.1 < s.nextId ∧ e.2.1 < s.nextId) ∧
  (∀ p ∈ s.settled, p < s.nextId) ∧
  (∀ e ∈ s.entries, e.2.1 < s.nextId ∧ e.2.2 < s.nextId)

/-! ### The call-rate tracker of Web3Context.tsx (lines 34-76) -/

/-- GLOBAL_RPC_LIMITS.maxCallsPerSecond. -/
def maxCallsPerSecond : Nat := 10

/-- GLOBAL_RPC_LIMITS.maxCallsPerMinute. -/
def maxCallsPerMinute : Nat := 100

/-- The mutable part of GLOBAL_RPC_LIMITS: the call history and the
adaptive backoff (a JS number, embedded as a rational). -/
structure RPCLimitsState where
  callHistory : List Nat
  backoffMs : ℚ
deriving DecidableEq, Repr

/-- The initial GLOBAL_RPC_LIMITS: empty history, 1000 ms backoff. -/
def initialRPCLimits : RPCLimitsState := { callHistory := [], backoffMs := 1000 }

/-- Math.min on JS numbers. -/
def jsMin (a b : ℚ) : ℚ := if a ≤ b then a else b

/-- Math.max on JS numbers. -/
def jsMax (a b : ℚ) : ℚ := if a ≤ b then b else a

theorem jsMin_eq (a b : ℚ) : jsMin a b = min a b := by
  unfold jsMin
  split
  · exact (min_eq_left (by assumption)).symm
  · exact (min_eq_right (le_of_not_le (by assumption))).symm

theorem jsMax_eq (a b : ℚ) : jsMax a b = max a b := by
  unfold jsMax
  split
  · exact (max_eq_right (by assumption)).symm
  · exact (max_eq_left (le_of_not_le (by assumption))).symm

/-- The history after a call at time now: push, then prune entries
older than one minute (lines 45-50). -/
def prunedHistory (s : RPCLimitsState) (now : Nat) : List Nat :=
  (s.callHistory ++ [now]).filter (fun t => now - t < 60000)

/-- callsLastSecond (lines 53-55). -/
def callsLastSecond (h : List Nat) (now : Nat) : Nat :=
  (h.filter (fun t => now - t < 1000)).length

/-- trackRPCCall (lines 43-76): push and prune the history, then branch
on the per-second and per-minute rates, adapting the backoff. -/
def trackRPCCall (s : RPCLimitsState) (now : Nat) : RPCLimitsState × Bool :=
  let h := prunedHistory s now
  let cls := callsLastSecond h now
  let clm := h.length
  if maxCallsPerSecond < cls then
    ({ callHistory := h, backoffMs := jsMin (s.backoffMs * (3 / 2)) 10000 }, true)
  else if maxCallsPerMinute < clm then
    ({ callHistory := h, backoffMs := jsMin (s.backoffMs * 2) 30000 }, true)
  else if cls < maxCallsPerSecond / 2 ∧ clm < maxCallsPerMinute / 2 then
    ({ callHistory := h, backoffMs := jsMax (s.backoffMs * (9 / 10)) 500 }, false)
  else
    ({ callHistory := h, backoffMs := s.backoffMs }, false)

/-- n successive tracked calls, all at time 0, from the initial
GLOBAL_RPC_LIMITS state. -/
def iterTrack : Nat → RPCLimitsState
  | 0 => initialRPCLimits
  | n + 1 => (trackRPCCall (iterTrack n) 0).1

/-! ### Helper lemmas -/

theorem tickCounters_cache (s : InterceptState) (m : String) (now : Nat) :
    (tickCounters s m now).cache = s.cache := by
  by_cases h : RESET_PERIOD < now - s.lastRpcReset <;> simp [tickCounters, h]

theorem tickCounters_pending (s : InterceptState) (m : String) (now : Nat) :
    (tickCounters s m now).pending = s.pending := by
  by_cases h : RESET_PERIOD < now - s.lastRpcReset <;> simp [tickCounters, h]

theorem tickCounters_debounced (s : InterceptState) (m : String) (now : Nat) :
    (tickCounters s m now).debounced = s.debounced := by
  by_cases h : RESET_PERIOD < now - s.lastRpcReset <;> simp [tickCounters, h]

theorem tickCounters_breaker (s : InterceptState) (m : String) (now : Nat) :
    (tickCounters s m now).circuitBreakerActive = s.circuitBreakerActive := by
  by_cases h : RESET_PERIOD < now - s.lastRpcReset <;> simp [tickCounters, h]

theorem tickCounters_nextId (s : InterceptState) (m : String) (now : Nat) :
    (tickCounters s m now).nextId = s.nextId := by
  by_cases h : RESET_PERIOD < now - s.lastRpcReset <;> simp [tickCounters, h]

/-- The four shapes the tracked backoff can take after one call. -/
theorem trackRPCCall_backoff_cases (s : RPCLimitsState) (now : Nat) :
    (trackRPCCall s now).1.backoffMs = jsMin (s.backoffMs * (3 / 2)) 10000 ∨
    (trackRPCCall s now).1.backoffMs = jsMin (s.backoffMs * 2) 30000 ∨
    (trackRPCCall s now).1.backoffMs = jsMax (s.backoffMs * (9 / 10)) 500 ∨
    (trackRPCCall s now).1.backoffMs = s.backoffMs := by
  by_cases h1 : maxCallsPerSecond < callsLastSecond (prunedHistory s now) now
  · simp [trackRPCCall, h1]
  · by_cases h2 : maxCallsPerMinute < (prunedHistory s now).length
    · simp [trackRPCCall, h1, h2]
    · by_cases h3 : callsLastSecond (prunedHistory s now) now < maxCallsPerSecond / 2 ∧
          (prunedHistory s now).length < maxCallsPerMinute / 2
      · simp [trackRPCCall, h1, h2, h3]
      · simp [trackRPCCall, h1, h2, h3]

/-! ### C6 : cache round-trip within TTL -/

/-- C6: for every cache key and value, a set followed by a get before the
method-specific TTL has elapsed, with no intervening operation on the key,
returns exactly the stored value. -/
theorem claim6_theorem (c : List (Key × CacheEntry)) (m p : String) (v : JSVal)
    (t now : Nat) (h : now - t < CACHE_TIMES m) :
    cacheGet (cacheSet c (mkKey m p) v t) m (mkKey m p) now = some v := by
  simp [cacheGet, cacheSet, lookupKV_insertKV, h]

/-- Witness for C6 at a concrete store and lookup. -/
theorem claim6_witness :
    (5 : Nat) - 0 < CACHE_TIMES "eth_call" ∧
    cacheGet (cacheSet [] (mkKey "eth_call" "[]") (JSVal.vstr "0x1") 0) "eth_call"
      (mkKey "eth_call" "[]") 5 = some (JSVal.vstr "0x1") :=
  ⟨by decide, claim6_theorem [] "eth_call" "[]" (JSVal.vstr "0x1") 0 5 (by decide)⟩

/-! ### C7 : the backoff stays within [500, 30000] -/

/-- C7: the tracked backoff starts at 1000 ms and every call to
trackRPCCall, whichever branch it takes, keeps it between 500 ms and
30000 ms. -/
theorem claim7_theorem (s : RPCLimitsState) (now : Nat)
    (h1 : 500 ≤ s.backoffMs) (h2 : s.backoffMs ≤ 30000) :
    (500 ≤ (trackRPCCall s now).1.backoffMs ∧
      (trackRPCCall s now).1.backoffMs ≤ 30000) ∧
    500 ≤ initialRPCLimits.backoffMs ∧ initialRPCLimits.backoffMs ≤ 30000 := by
  refine ⟨?_, by norm_num [initialRPCLimits], by norm_num [initialRPCLimits]⟩
  rcases trackRPCCall_backoff_cases s now with h | h | h | h <;>
    rw [h] <;> try rw [jsMin_eq]
  rotate_left 2
  · rw [jsMax_eq]
    constructor
    · exact le_max_right _ _
    · exact max_le (by linarith) (by norm_num)
  · exact ⟨h1, h2⟩
  · constructor
    · exact le_min (by linarith) (by norm_num)
    · exact le_trans (min_le_right _ _) (by norm_num)
  · constructor
    · exact le_min (by linarith) (by norm_num)
    · exact min_le_right _ _

/-- Witness for C7 at the initial tracker state. -/
theorem claim7_witness :
    (500 : ℚ) ≤ initialRPCLimits.backoffMs ∧ initialRPCLimits.backoffMs ≤ 30000 ∧
    500 ≤ (trackRPCCall initialRPCLimits 0).1.backoffMs ∧
    (trackRPCCall initialRPCLimits 0).1.backoffMs ≤ 30000 := by
  have h := claim7_theorem initialRPCLimits 0 (by norm_num [initialRPCLimits])
    (by norm_num [initialRPCLimits])
  exact ⟨h.2.1, h.2.2, h.1.1, h.1.2⟩

/-! ### C3 : closing the breaker

The claim says both the automatic 15-second recovery and the manual
reset clear the cache and reset the call counters.  In the code the
automatic recovery (lines 256-265) clears only the cache: the counters
are untouched, so the claim fails; resetCircuitBreaker (lines 286-300)
does both. -/

/-- A reachable open-breaker state with nonzero call counters. -/
def openBusyState : InterceptState :=
  { initInterceptState with
    circuitBreakerActive := true, rpcCallCount := 7,
    rpcCallsByType := [("eth_call", 7)],
    cache := [(mkKey "eth_call" "[]", { value := JSVal.vstr "0x1", timestamp := 0 })] }

/-- Counterexample to C3: the automatic recovery closes the breaker and
empties the cache but leaves the RPC call counters unreset. -/
theorem claim3_counterexample :
    (autoRecover openBusyState).circuitBreakerActive = false ∧
    (autoRecover openBusyState).cache = [] ∧
    (autoRecover openBusyState).rpcCallCount = 7 ∧
    (autoRecover openBusyState).rpcCallCount ≠ 0 ∧
    (autoRecover openBusyState).rpcCallsByType = [("eth_call", 7)] ∧
    (autoRecover openBusyState).rpcCallsByType ≠ [] := by
  refine ⟨rfl, rfl, rfl, by decide, rfl, by decide⟩

/-- C3 as amended: both the automatic recovery and the manual reset
close the breaker and empty the cache; the call counters are reset only
by the manual reset, the automatic path leaves them unchanged; and the
recovery the overload monitor schedules fires after exactly 15000 ms. -/
theorem claim3_theorem (s : InterceptState) (now : Nat) :
    (autoRecover s).circuitBreakerActive = false ∧
    (autoRecover s).cache = [] ∧
    (autoRecover s).rpcCallCount = s.rpcCallCount ∧
    (autoRecover s).rpcCallsByType = s.rpcCallsByType ∧
    (resetCircuitBreaker s now).circuitBreakerActive = false ∧
    (resetCircuitBreaker s now).cache = [] ∧
    (resetCircuitBreaker s now).rpcCallCount = 0 ∧
    (resetCircuitBreaker s now).rpcCallsByType = [] ∧
    ((checkOverload s now).2 = none ∨ (checkOverload s now).2 = some 15000) := by
  refine ⟨rfl, rfl, rfl, rfl, rfl, rfl, rfl, rfl, ?_⟩
  unfold checkOverload
  split
  · split
    · exact Or.inr rfl
    · exact Or.inl rfl
  · exact Or.inl rfl

/-! ### C5 : error propagation

The claim says the breaker-open read path is the only path where a
rejection of the underlying request is swallowed and resolved as null.
In the code the breaker-open non-read path (lines 144-147) swallows
rejections in exactly the same way, so the claim fails. -/

/-- Counterexample to C5: on the breaker-open non-read path a rejection
of the underlying call is swallowed and the caller's promise resolves
with null instead of rejecting. -/
theorem claim5_counterexample :
    (settleOpenOther initInterceptState (Outcome.rejected 0)).2 =
      Outcome.resolved JSVal.vnull ∧
    (settleOpenOther initInterceptState (Outcome.rejected 0)).2 ≠
      Outcome.rejected 0 := by
  exact ⟨rfl, by decide⟩

/-- C5 as amended: a rejection of the underlying request propagates to
the caller on both breaker-closed paths (the direct one and the
debounced one), while both breaker-open paths, read-type and non-read,
swallow the rejection and resolve the caller's promise with null; a
resolution always propagates its value. -/
theorem claim5_theorem (s : InterceptState) (k dk : Key) (e : Nat) (v : JSVal)
    (now : Nat) :
    (settleFresh s k (Outcome.rejected e) now).2 = Outcome.rejected e ∧
    (settleFresh s k (Outcome.resolved v) now).2 = Outcome.resolved v ∧
    (settleDebounced s k dk (Outcome.rejected e) now).2 = Outcome.rejected e ∧
    (settleDebounced s k dk (Outcome.resolved v) now).2 = Outcome.resolved v ∧
    (settleOpenRead s k (Outcome.rejected e) now).2 = Outcome.resolved JSVal.vnull ∧
    (settleOpenRead s k (Outcome.resolved v) now).2 = Outcome.resolved v ∧
    (settleOpenOther s (Outcome.rejected e)).2 = Outcome.resolved JSVal.vnull ∧
    (settleOpenOther s (Outcome.resolved v)).2 = Outcome.resolved v :=
  ⟨rfl, rfl, rfl, rfl, rfl, rfl, rfl, rfl⟩

/-! ### Path lemmas for the intercepted request -/

theorem intercept_open_read_hit (s : InterceptState) (m p : String) (now : Nat)
    (e : CacheEntry) (hcb : s.circuitBreakerActive = true)
    (hread : isReadMethod m = true)
    (hc : lookupKV s.cache (mkKey m p) = some e) (ht : e.value.truthy = true) :
    (intercept s m p now).2 = CallResult.openCached e.value := by
  simp [intercept, route, tickCounters_breaker, tickCounters_cache, hcb, hread, hc, ht]

theorem intercept_open_read_falsy (s : InterceptState) (m p : String) (now : Nat)
    (e : CacheEntry) (hcb : s.circuitBreakerActive = true)
    (hread : isReadMethod m = true)
    (hc : lookupKV s.cache (mkKey m p) = some e) (ht : e.value.truthy = false) :
    (intercept s m p now).2 = CallResult.openThrottled s.nextId := by
  simp [intercept, route, tickCounters_breaker, tickCounters_cache,
    tickCounters_nextId, hcb, hread, hc, ht]

theorem intercept_open_read_miss (s : InterceptState) (m p : String) (now : Nat)
    (hcb : s.circuitBreakerActive = true) (hread : isReadMethod m = true)
    (hc : lookupKV s.cache (mkKey m p) = none) :
    (intercept s m p now).2 = CallResult.openThrottled s.nextId := by
  simp [intercept, route, tickCounters_breaker, tickCounters_cache,
    tickCounters_nextId, hcb, hread, hc]

theorem intercept_open_other (s : InterceptState) (m p : String) (now : Nat)
    (hcb : s.circuitBreakerActive = true) (hread : isReadMethod m = false) :
    (intercept s m p now).2 = CallResult.openDelayed s.nextId := by
  simp [intercept, route, tickCounters_breaker, tickCounters_nextId, hcb, hread]

theorem intercept_closed_cache_hit (s : InterceptState) (m p : String) (now : Nat)
    (e : CacheEntry) (hcb : s.circuitBreakerActive = false)
    (hpend : lookupKV s.pending (mkKey m p) = none)
    (hc : lookupKV s.cache (mkKey m p) = some e)
    (hfresh : now - e.timestamp < CACHE_TIMES m) :
    (intercept s m p now).2 = CallResult.cachedFresh e.value := by
  simp [intercept, route, tickCounters_breaker, tickCounters_cache,
    tickCounters_pending, hcb, hpend, cacheGet, hc, hfresh]

/-! ### C2 : the circuit-breaker-open policy

The claim says an Open read-type call with any cached entry returns the
cached value.  The code (line 115) additionally requires the cached
*value* to be truthy: a falsy cached value sends the call down the
3000 ms throttle path, so the claim fails on a cached null. -/

/-- An open-breaker state whose cache holds a falsy value. -/
def openFalsyCacheState : InterceptState :=
  { initInterceptState with
    circuitBreakerActive := true,
    cache := [(mkKey "eth_call" "[]", { value := JSVal.vnull, timestamp := 0 })] }

/-- An open-breaker state whose cache holds a truthy value. -/
def openTruthyCacheState : InterceptState :=
  { initInterceptState with
    circuitBreakerActive := true,
    cache := [(mkKey "eth_call" "[]", { value := JSVal.vstr "0x1", timestamp := 0 })] }

/-- Counterexample to C2: with the breaker Open, a read-type call whose
cached entry exists but holds the falsy value null is not answered from
the cache; it takes the 3000 ms throttle path instead. -/
theorem claim2_counterexample :
    openFalsyCacheState.circuitBreakerActive = true ∧
    lookupKV openFalsyCacheState.cache (mkKey "eth_call" "[]") =
      some { value := JSVal.vnull, timestamp := 0 } ∧
    (intercept openFalsyCacheState "eth_call" "[]" 5).2 = CallResult.openThrottled 0 ∧
    (intercept openFalsyCacheState "eth_call" "[]" 5).2 ≠
      CallResult.openCached JSVal.vnull := by
  refine ⟨rfl, by decide, by decide, by decide⟩

/-- C2 as amended: while the breaker is Open, a read-type call whose
cached entry exists *and holds a truthy value* returns that value
without delay and without touching the provider; a read-type call with
no cached entry resolves only after the fixed 3000 ms delay, is then
executed against the provider, and a successful result is cached; a
non-read call proceeds after the smaller fixed 1000 ms delay. -/
theorem claim2_theorem (s : InterceptState) (m p : String) (now : Nat)
    (e : CacheEntry) (k : Key) (v : JSVal) (t : Nat)
    (hcb : s.circuitBreakerActive = true) :
    (isReadMethod m = true → lookupKV s.cache (mkKey m p) = some e →
      e.value.truthy = true →
      (intercept s m p now).2 = CallResult.openCached e.value ∧
      schedulesUnderlying (intercept s m p now).2 = none ∧
      invokesUnderlyingNow (intercept s m p now).2 = false) ∧
    (isReadMethod m = true → lookupKV s.cache (mkKey m p) = none →
      (intercept s m p now).2 = CallResult.openThrottled s.nextId ∧
      schedulesUnderlying (intercept s m p now).2 = some 3000) ∧
    (isReadMethod m = false →
      (intercept s m p now).2 = CallResult.openDelayed s.nextId ∧
      schedulesUnderlying (intercept s m p now).2 = some 1000) ∧
    lookupKV (settleOpenRead s k (Outcome.resolved v) t).1.cache k =
      some { value := v, timestamp := t } := by
  refine ⟨fun hread hc ht => ?_, fun hread hc => ?_, fun hread => ?_, ?_⟩
  · rw [intercept_open_read_hit s m p now e hcb hread hc ht]
    exact ⟨rfl, rfl, rfl⟩
  · rw [intercept_open_read_miss s m p now hcb hread hc]
    exact ⟨rfl, rfl⟩
  · rw [intercept_open_other s m p now hcb hread]
    exact ⟨rfl, rfl⟩
  · exact lookupKV_insertKV _ _ _

/-- Witness for C2 at two concrete open-breaker calls: a truthy cache
hit answered immediately and a cache miss throttled for 3000 ms. -/
theorem claim2_witness :
    ((intercept openTruthyCacheState "eth_call" "[]" 99999).2 =
        CallResult.openCached (JSVal.vstr "0x1") ∧
      schedulesUnderlying (intercept openTruthyCacheState "eth_call" "[]" 99999).2 =
        none ∧
      invokesUnderlyingNow (intercept openTruthyCacheState "eth_call" "[]" 99999).2 =
        false) ∧
    ((intercept openTruthyCacheState "eth_accounts" "[]" 0).2 =
        CallResult.openThrottled 0 ∧
      schedulesUnderlying (intercept openTruthyCacheState "eth_accounts" "[]" 0).2 =
        some 3000) :=
  ⟨(claim2_theorem openTruthyCacheState "eth_call" "[]" 99999
      { value := JSVal.vstr "0x1", timestamp := 0 } [] JSVal.vnull 0 rfl).1
      (by decide) (by decide) (by decide),
   (claim2_theorem openTruthyCacheState "eth_accounts" "[]" 0
      { value := JSVal.vstr "0x1", timestamp := 0 } [] JSVal.vnull 0 rfl).2.1
      (by decide) (by decide)⟩

/-! ### C10 : truthiness gating of the open-state cache, freshness
gating of the closed-state cache -/

/-- C10: while the breaker is Open a read-type call is served from the
cache regardless of the entry's age but only if the stored value is
truthy, a falsy value being treated as absent and throttled for
3000 ms; while the breaker is Closed the cache check is only about
freshness, so a fresh falsy value is returned. -/
theorem claim10_theorem (s : InterceptState) (m p : String) (now : Nat)
    (e : CacheEntry) (hread : isReadMethod m = true) :
    (s.circuitBreakerActive = true → lookupKV s.cache (mkKey m p) = some e →
      (e.value.truthy = true →
        (intercept s m p now).2 = CallResult.openCached e.value) ∧
      (e.value.truthy = false →
        (intercept s m p now).2 = CallResult.openThrottled s.nextId ∧
        schedulesUnderlying (intercept s m p now).2 = some 3000)) ∧
    (s.circuitBreakerActive = false → lookupKV s.pending (mkKey m p) = none →
      lookupKV s.cache (mkKey m p) = some e → now - e.timestamp < CACHE_TIMES m →
      (intercept s m p now).2 = CallResult.cachedFresh e.value) := by
  refine ⟨fun hcb hc => ⟨fun ht => ?_, fun ht => ?_⟩, fun hcb hpend hc hfresh => ?_⟩
  · exact intercept_open_read_hit s m p now e hcb hread hc ht
  · rw [intercept_open_read_falsy s m p now e hcb hread hc ht]
    exact ⟨rfl, rfl⟩
  · exact intercept_closed_cache_hit s m p now e hcb hpend hc hfresh

/-- A closed-breaker state whose cache holds a fresh falsy value. -/
def closedFalsyCacheState : InterceptState :=
  { initInterceptState with
    cache := [(mkKey "eth_call" "[]", { value := JSVal.vnull, timestamp := 0 })] }

/-- Witness for C10: with the breaker Open an arbitrarily old truthy
entry is served and a falsy one is throttled; with the breaker Closed a
fresh falsy entry is returned as-is. -/
theorem claim10_witness :
    (intercept openTruthyCacheState "eth_call" "[]" 99999999).2 =
      CallResult.openCached (JSVal.vstr "0x1") ∧
    (intercept openFalsyCacheState "eth_call" "[]" 5).2 =
      CallResult.openThrottled 0 ∧
    (intercept closedFalsyCacheState "eth_call" "[]" 5).2 =
      CallResult.cachedFresh JSVal.vnull :=
  ⟨((claim10_theorem openTruthyCacheState "eth_call" "[]" 99999999
      { value := JSVal.vstr "0x1", timestamp := 0 } (by decide)).1 rfl
      (by decide)).1 (by decide),
   (((claim10_theorem openFalsyCacheState "eth_call" "[]" 5
      { value := JSVal.vnull, timestamp := 0 } (by decide)).1 rfl
      (by decide)).2 (by decide)).1,
   (claim10_theorem closedFalsyCacheState "eth_call" "[]" 5
      { value := JSVal.vnull, timestamp := 0 } (by decide)).2 rfl (by decide)
      (by decide) (by decide)⟩

/-! ### C8 : the periodic sweep removes exactly the over-age entries -/

/-- Splitting a key built from a dash-free method name at the first
dash recovers the method name. -/
theorem keyMethod_append (l r : List Char) (h : Char.ofNat 45 ∉ l) :
    keyMethod (l ++ Char.ofNat 45 :: r) = l := by
  induction l with
  | nil => simp [keyMethod]
  | cons c t ih =>
    have hc : ¬ c = Char.ofNat 45 := by
      intro hceq
      exact h (by rw [hceq]; exact List.mem_cons_self _ _)
    have ht : Char.ofNat 45 ∉ t := fun hm => h (List.mem_cons_of_mem c hm)
    simp [keyMethod, hc, ih ht]

theorem keyMethod_mkKey (m p : String) (h : Char.ofNat 45 ∉ m.data) :
    keyMethod (mkKey m p) = m.data :=
  keyMethod_append m.data p.data h

/-- C8: for keys built from a dash-free method name, one run of the
sweep keeps an entry exactly when its age is at most three times the
TTL of the entry's method (with the default TTL for methods not in the
table); kept entries are left unchanged in the cache list. -/
theorem claim8_theorem (c : List (Key × CacheEntry)) (now : Nat) (m p : String)
    (e : CacheEntry) (h : Char.ofNat 45 ∉ m.data) :
    (mkKey m p, e) ∈ cleanupSweep now c ↔
      (mkKey m p, e) ∈ c ∧ now - e.timestamp ≤ 3 * CACHE_TIMES m := by
  have httl : cacheTimeOf (keyMethod (mkKey m p)) = CACHE_TIMES m := by
    rw [keyMethod_mkKey m p h]; rfl
  induction c with
  | nil => simp [cleanupSweep]
  | cons kv t ih =>
    unfold cleanupSweep
    split
    · rename_i hdrop
      simp only [ih, List.mem_cons]
      constructor
      · rintro ⟨hm, hc⟩
        exact ⟨Or.inr hm, hc⟩
      · rintro ⟨heq | hm2, hc⟩
        · exfalso
          rw [← heq] at hdrop
          have hd2 : 3 * CACHE_TIMES m < now - e.timestamp := by
            simpa [httl] using hdrop
          omega
        · exact ⟨hm2, hc⟩
    · rename_i hkeep
      simp only [List.mem_cons, ih]
      constructor
      · rintro (heq | ⟨hm, hc⟩)
        · refine ⟨Or.inl heq, ?_⟩
          rw [← heq] at hkeep
          have hk2 : ¬ 3 * CACHE_TIMES m < now - e.timestamp := by
            simpa [httl] using hkeep
          omega
        · exact ⟨Or.inr hm, hc⟩
      · rintro ⟨heq | hm, hc⟩
        · exact Or.inl heq
        · exact Or.inr ⟨hm, hc⟩

/-- A sample cache entry for the sweep witness. -/
def sampleEntry : CacheEntry := { value := JSVal.vnum 1, timestamp := 0 }

/-- Witness for C8: an eth_call entry aged 12000 ms is within three
times its 5000 ms TTL (bound 15000), and the instantiated equivalence
says it survives the sweep exactly under that bound. -/
theorem claim8_witness :
    Char.ofNat 45 ∉ "eth_call".data ∧
    ((mkKey "eth_call" "[]", sampleEntry) ∈
        cleanupSweep 12000 [(mkKey "eth_call" "[]", sampleEntry)] ↔
      (mkKey "eth_call" "[]", sampleEntry) ∈ [(mkKey "eth_call" "[]", sampleEntry)] ∧
        12000 - sampleEntry.timestamp ≤ 3 * CACHE_TIMES "eth_call") :=
  ⟨by decide,
   claim8_theorem [(mkKey "eth_call" "[]", sampleEntry)]
     12000 "eth_call" "[]" sampleEntry (by decide)⟩

/-! ### C4 : rate-tracker thresholds and backoff adaptation

The claim says the backoff of the per-second branch grows by a factor
1.5 monotonically up to the 30000 ms cap.  In the code (line 61) that
branch is clamped at 10000 ms: once the backoff reaches 10000 a further
over-limit call leaves it unchanged rather than multiplying it by 1.5,
and it never approaches 30000 through that branch.  Only the per-minute
branch (line 66) is clamped at 30000, and the decay branch (line 72) is
floored at 500. -/

set_option maxRecDepth 100000

/-- Counterexample to C4: after 18 tracked calls at the same instant,
starting from the initial state, the backoff sits at exactly 10000 ms;
the 19th call is over the per-second limit and returns true, yet the
backoff stays 10000, which is not 1.5 times its previous value and is
well below the claimed 30000 cap. -/
theorem claim4_counterexample :
    (iterTrack 18).backoffMs = 10000 ∧
    maxCallsPerSecond < callsLastSecond (prunedHistory (iterTrack 18) 0) 0 ∧
    (trackRPCCall (iterTrack 18) 0).2 = true ∧
    (trackRPCCall (iterTrack 18) 0).1.backoffMs = 10000 ∧
    (trackRPCCall (iterTrack 18) 0).1.backoffMs ≠ (iterTrack 18).backoffMs * (3 / 2) ∧
    (trackRPCCall (iterTrack 18) 0).1.backoffMs < 30000 := by
  norm_num [iterTrack, trackRPCCall, prunedHistory, callsLastSecond, jsMin, jsMax,
    initialRPCLimits, maxCallsPerSecond, maxCallsPerMinute]

/-- C4 as amended: a call pushing the one-second rate over its
threshold (10) returns true and sets the backoff to min(1.5·b, 10000),
which is nondecreasing while b is at most that branch's 10000 ms cap
and never exceeds it; a call over only the per-minute threshold (100)
returns true and sets the backoff to min(2·b, 30000), nondecreasing up
to that 30000 ms cap; a call with both rates under half their
thresholds returns false and decays the backoff to max(0.9·b, 500),
never below the 500 ms floor. -/
theorem claim4_theorem (s : RPCLimitsState) (now : Nat) :
    (maxCallsPerSecond < callsLastSecond (prunedHistory s now) now →
      (trackRPCCall s now).2 = true ∧
      (trackRPCCall s now).1.backoffMs = jsMin (s.backoffMs * (3 / 2)) 10000 ∧
      (0 ≤ s.backoffMs → s.backoffMs ≤ 10000 →
        s.backoffMs ≤ (trackRPCCall s now).1.backoffMs) ∧
      (trackRPCCall s now).1.backoffMs ≤ 10000) ∧
    (callsLastSecond (prunedHistory s now) now ≤ maxCallsPerSecond →
      maxCallsPerMinute < (prunedHistory s now).length →
      (trackRPCCall s now).2 = true ∧
      (trackRPCCall s now).1.backoffMs = jsMin (s.backoffMs * 2) 30000 ∧
      (0 ≤ s.backoffMs → s.backoffMs ≤ 30000 →
        s.backoffMs ≤ (trackRPCCall s now).1.backoffMs) ∧
      (trackRPCCall s now).1.backoffMs ≤ 30000) ∧
    (callsLastSecond (prunedHistory s now) now < maxCallsPerSecond / 2 →
      (prunedHistory s now).length < maxCallsPerMinute / 2 →
      (trackRPCCall s now).2 = false ∧
      (trackRPCCall s now).1.backoffMs = jsMax (s.backoffMs * (9 / 10)) 500 ∧
      500 ≤ (trackRPCCall s now).1.backoffMs ∧
      (0 ≤ s.backoffMs → 500 ≤ s.backoffMs →
        (trackRPCCall s now).1.backoffMs ≤ s.backoffMs)) := by
  refine ⟨fun h1 => ?_, fun h1 h2 => ?_, fun h3a h3b => ?_⟩
  · have hr : trackRPCCall s now =
        ({ callHistory := prunedHistory s now,
           backoffMs := jsMin (s.backoffMs * (3 / 2)) 10000 }, true) := by
      simp [trackRPCCall, h1]
    rw [hr]
    refine ⟨rfl, rfl, fun hb0 hb => ?_, ?_⟩
    · rw [jsMin_eq]
      exact le_min (by linarith) hb
    · rw [jsMin_eq]
      exact min_le_right _ _
  · have h1n : ¬ maxCallsPerSecond < callsLastSecond (prunedHistory s now) now :=
      not_lt.mpr h1
    have hr : trackRPCCall s now =
        ({ callHistory := prunedHistory s now,
           backoffMs := jsMin (s.backoffMs * 2) 30000 }, true) := by
      simp [trackRPCCall, h1n, h2]
    rw [hr]
    refine ⟨rfl, rfl, fun hb0 hb => ?_, ?_⟩
    · rw [jsMin_eq]
      exact le_min (by linarith) hb
    · rw [jsMin_eq]
      exact min_le_right _ _
  · have h1n : ¬ maxCallsPerSecond < callsLastSecond (prunedHistory s now) now := by
      have : callsLastSecond (prunedHistory s now) now < maxCallsPerSecond := by
        have : maxCallsPerSecond / 2 ≤ maxCallsPerSecond := Nat.div_le_self _ _
        omega
      omega
    have h2n : ¬ maxCallsPerMinute < (prunedHistory s now).length := by
      have : maxCallsPerMinute / 2 ≤ maxCallsPerMinute := Nat.div_le_self _ _
      omega
    have hr : trackRPCCall s now =
        ({ callHistory := prunedHistory s now,
           backoffMs := jsMax (s.backoffMs * (9 / 10)) 500 }, false) := by
      simp [trackRPCCall, h1n, h2n, h3a, h3b]
    rw [hr]
    refine ⟨rfl, rfl, ?_, fun hb0 hb => ?_⟩
    · rw [jsMax_eq]
      exact le_max_right _ _
    · rw [jsMax_eq]
      exact max_le (by linarith) hb

/-- Witness for C4: twelve calls already inside the current second make
the next call over-limit; it returns true and multiplies the 1000 ms
backoff by 1.5 to 1500 ms. -/
theorem claim4_witness :
    maxCallsPerSecond <
      callsLastSecond
        (prunedHistory { callHistory := List.replicate 11 0, backoffMs := 1000 } 0) 0 ∧
    (trackRPCCall { callHistory := List.replicate 11 0, backoffMs := 1000 } 0).2 =
      true ∧
    (trackRPCCall { callHistory := List.replicate 11 0, backoffMs := 1000 } 0).1.backoffMs =
      jsMin ((1000 : ℚ) * (3 / 2)) 10000 :=
  ⟨by decide,
   ((claim4_theorem { callHistory := List.replicate 11 0, backoffMs := 1000 } 0).1
     (by decide)).1,
   ((claim4_theorem { callHistory := List.replicate 11 0, backoffMs := 1000 } 0).1
     (by decide)).2.1⟩

/-! ### C9 : a superseded debounced call never settles -/

/-- A promise id that no armed timer can ever settle: it is already
allocated, not settled, and not referenced by any armed timer.  Every
debounce event preserves this. -/
def PromiseUnreachable (p1 : Nat) (s : DebounceState) : Prop :=
  p1 < s.nextId ∧ p1 ∉ s.settled ∧ ∀ e ∈ s.armed, e.2.1 ≠ p1

theorem mem_armedAfterClear {s : DebounceState} {k : Key} {e : Nat × (Nat × Key)}
    (h : e ∈ armedAfterClear s k) : e ∈ s.armed := by
  unfold armedAfterClear at h
  split at h
  · exact mem_of_mem_eraseKV h
  · exact h

theorem promiseUnreachable_step (p1 : Nat) (s : DebounceState) (ev : DbEvent)
    (h : PromiseUnreachable p1 s) : PromiseUnreachable p1 (dbStep s ev) := by
  obtain ⟨hlt, hset, harm⟩ := h
  cases ev with
  | call k =>
    show PromiseUnreachable p1 (debounceRpcCall s k).1
    refine ⟨by simp only [debounceRpcCall]; omega,
      by simp only [debounceRpcCall]; exact hset, ?_⟩
    intro e he
    simp only [debounceRpcCall] at he
    rcases List.mem_cons.mp he with heq | hm
    · rw [heq]
      simp only
      omega
    · exact harm e (mem_armedAfterClear hm)
  | fire t =>
    show PromiseUnreachable p1 (fireTimer s t)
    cases hl : lookupKV s.armed t with
    | none =>
      simp only [fireTimer, hl]
      exact ⟨hlt, hset, harm⟩
    | some pk =>
      simp only [fireTimer, hl]
      refine ⟨hlt, ?_, ?_⟩
      · intro hmem
        rcases List.mem_cons.mp hmem with heq | hm
        · exact harm (t, pk) (lookupKV_mem hl) heq.symm
        · exact hset hm
      · intro e he
        exact harm e (mem_of_mem_eraseKV he)

theorem promiseUnreachable_run (p1 : Nat) (evs : List DbEvent) :
    ∀ s : DebounceState, PromiseUnreachable p1 s →
      PromiseUnreachable p1 (dbRun s evs) := by
  induction evs with
  | nil => intro s h; exact h
  | cons ev evs ih =>
    intro s h
    rw [dbRun, List.foldl_cons]
    exact ih (dbStep s ev) (promiseUnreachable_step p1 s ev h)

/-- C9: when a debounced call for a key (its promise is the returned
.2.1, its timer the returned .2.2) is superseded by a later debounced
call for the same key before its timer fires, the earlier timer is no
longer armed, the earlier promise differs from the new one and never
settles - not after the second call nor after any further sequence of
debounce events - while firing the new timer settles exactly the new
promise, so only the most recent caller receives a result. -/
theorem claim9_theorem (s : DebounceState) (k : Key) (evs : List DbEvent)
    (hwf : DbWF s) :
    lookupKV (debounceRpcCall (debounceRpcCall s k).1 k).1.armed
      (debounceRpcCall s k).2.2 = none ∧
    (debounceRpcCall s k).2.1 ∉
      (debounceRpcCall (debounceRpcCall s k).1 k).1.settled ∧
    (debounceRpcCall s k).2.1 ∉
      (dbRun (debounceRpcCall (debounceRpcCall s k).1 k).1 evs).settled ∧
    (debounceRpcCall s k).2.1 ≠ (debounceRpcCall (debounceRpcCall s k).1 k).2.1 ∧
    (fireTimer (debounceRpcCall (debounceRpcCall s k).1 k).1
        (debounceRpcCall (debounceRpcCall s k).1 k).2.2).settled =
      (debounceRpcCall (debounceRpcCall s k).1 k).2.1 ::
        (debounceRpcCall (debounceRpcCall s k).1 k).1.settled := by
  obtain ⟨hwa, hws, hwe⟩ := hwf
  have hclear : armedAfterClear
      { entries := insertKV k (s.nextId, s.nextId + 1) s.entries,
        armed := (s.nextId, (s.nextId + 1, k)) :: armedAfterClear s k,
        settled := s.settled, nextId := s.nextId + 2 } k =
      eraseKV s.nextId ((s.nextId, (s.nextId + 1, k)) :: armedAfterClear s k) := by
    simp [armedAfterClear, lookupKV_insertKV]
  have hne2 : ¬ (s.nextId + 2 = s.nextId) := by omega
  refine ⟨?_, ?_, ?_, ?_, ?_⟩
  · simp only [debounceRpcCall]
    rw [hclear]
    simp [lookupKV, hne2, lookupKV_eraseKV]
  · simp only [debounceRpcCall]
    intro hmem
    exact absurd (hws _ hmem) (by omega)
  · simp only [debounceRpcCall]
    rw [hclear]
    refine (promiseUnreachable_run (s.nextId + 1) evs _ ⟨?_, ?_, ?_⟩).2.1
    · show s.nextId + 1 < s.nextId + 2 + 2
      omega
    · intro hmem
      exact absurd (hws _ hmem) (by omega)
    · intro e he
      rcases List.mem_cons.mp he with heq | hm
      · rw [heq]
        simp only
        omega
      · have hne := ne_of_mem_eraseKV hm
        rcases List.mem_cons.mp (mem_of_mem_eraseKV hm) with heq2 | hm2
        · exact absurd (by rw [heq2]) hne
        · exact fun habs =>
            absurd (hwa e (mem_armedAfterClear hm2)).2 (by omega)
  · simp only [debounceRpcCall]
    omega
  · simp only [debounceRpcCall]
    simp [fireTimer, lookupKV]

/-- The debounce key of the witness. -/
def debKey : Key := "debounce-".data ++ mkKey "eth_call" "[]"

/-- Witness for C9 from the empty debounce state: the first call gets
promise 1 and timer 0, the second gets promise 3 and timer 2; timer 0
is cleared, promise 1 stays unsettled even after firing timer 2, and
firing timer 2 settles promise 3. -/
theorem claim9_witness :
    DbWF initDebounceState ∧
    lookupKV (debounceRpcCall (debounceRpcCall initDebounceState debKey).1
      debKey).1.armed 0 = none ∧
    1 ∉ (debounceRpcCall (debounceRpcCall initDebounceState debKey).1
      debKey).1.settled ∧
    1 ∉ (dbRun (debounceRpcCall (debounceRpcCall initDebounceState debKey).1
      debKey).1 [DbEvent.fire 2]).settled ∧
    (1 : Nat) ≠ 3 ∧
    (fireTimer (debounceRpcCall (debounceRpcCall initDebounceState debKey).1
      debKey).1 2).settled =
      3 :: (debounceRpcCall (debounceRpcCall initDebounceState debKey).1
        debKey).1.settled := by
  have hwf : DbWF initDebounceState := by
    refine ⟨?_, ?_, ?_⟩ <;> intro x hx <;> simp [initDebounceState] at hx
  have h := claim9_theorem initDebounceState debKey [DbEvent.fire 2] hwf
  exact ⟨hwf, h.1, h.2.1, h.2.2.1, h.2.2.2.1, h.2.2.2.2⟩

/-! ### C1 : request coalescing on the pending map

The claim says any two same-key calls, the second while the first is
unresolved (breaker Closed), share one in-flight promise.  That is true
when the first call took the direct path (its pending entry exists),
but the debounce path bypasses the pending map: two same-key over-limit
calls get two distinct promises (the earlier one is cancelled), which
refutes the claim as stated.  The pending entry is indeed removed when
the request settles, resolve or reject. -/

/-- Inversion: a call that returned the direct-request path left its
promise in the pending map under its cache key. -/
theorem route_fresh_pending (s : InterceptState) (m p : String) (now pid : Nat)
    (h : (route s m p now).2 = CallResult.freshRequest pid) :
    lookupKV (route s m p now).1.pending (mkKey m p) = some pid := by
  unfold route at h ⊢
  cases hcb : s.circuitBreakerActive with
  | true =>
    cases hread : isReadMethod m with
    | true =>
      cases hc : lookupKV s.cache (mkKey m p) with
      | some e =>
        cases ht : e.value.truthy <;> simp [hcb, hread, hc, ht] at h
      | none => simp [hcb, hread, hc] at h
    | false => simp [hcb, hread] at h
  | false =>
    cases hp : lookupKV s.pending (mkKey m p) with
    | some pid2 => simp [hcb, hp] at h
    | none =>
      cases hg : cacheGet s.cache m (mkKey m p) now with
      | some v => simp [hcb, hp, hg] at h
      | none =>
        by_cases hlim : rpcLimitOf m < countOf s.rpcCallsByType m
        · simp [hcb, hp, hg, hlim] at h
        · simp only [hcb, hp, hg, hlim] at h ⊢
          simp at h
          simp [lookupKV_insertKV, h]

/-- The routed call never changes the breaker flag. -/
theorem route_breaker (s : InterceptState) (m p : String) (now : Nat) :
    (route s m p now).1.circuitBreakerActive = s.circuitBreakerActive := by
  unfold route
  cases hcb : s.circuitBreakerActive with
  | true =>
    cases hread : isReadMethod m with
    | true =>
      cases hc : lookupKV s.cache (mkKey m p) with
      | some e => cases ht : e.value.truthy <;> simp [hcb, hread, hc, ht]
      | none => simp [hcb, hread, hc]
    | false => simp [hcb, hread]
  | false =>
    cases hp : lookupKV s.pending (mkKey m p) with
    | some pid2 => simp [hcb, hp]
    | none =>
      cases hg : cacheGet s.cache m (mkKey m p) now with
      | some v => simp [hcb, hp, hg]
      | none =>
        by_cases hlim : rpcLimitOf m < countOf s.rpcCallsByType m <;>
          simp [hcb, hp, hg, hlim]

theorem intercept_fresh_pending (s : InterceptState) (m p : String) (now pid : Nat)
    (h : (intercept s m p now).2 = CallResult.freshRequest pid) :
    lookupKV (intercept s m p now).1.pending (mkKey m p) = some pid :=
  route_fresh_pending (tickCounters s m now) m p now pid h

theorem intercept_breaker (s : InterceptState) (m p : String) (now : Nat) :
    (intercept s m p now).1.circuitBreakerActive = s.circuitBreakerActive := by
  unfold intercept
  rw [route_breaker, tickCounters_breaker]

/-- With the breaker closed, a call whose key has an in-flight pending
promise returns that same promise and touches the provider neither now
nor via a timer. -/
theorem intercept_shared (s : InterceptState) (m p : String) (now pid : Nat)
    (hcb : s.circuitBreakerActive = false)
    (hp : lookupKV s.pending (mkKey m p) = some pid) :
    (intercept s m p now).2 = CallResult.sharedPending pid ∧
    invokesUnderlyingNow (intercept s m p now).2 = false ∧
    schedulesUnderlying (intercept s m p now).2 = none := by
  have hcb2 : (tickCounters s m now).circuitBreakerActive = false := by
    rw [tickCounters_breaker]; exact hcb
  have hp2 : lookupKV (tickCounters s m now).pending (mkKey m p) = some pid := by
    rw [tickCounters_pending]; exact hp
  unfold intercept route
  simp [hcb2, hp2, invokesUnderlyingNow, schedulesUnderlying]

/-- C1 as amended: if a call took the direct request path (returning a
fresh in-flight promise) with the breaker Closed, then a second call
with the same method and params issued before that request settles
returns the very same promise and performs no further provider request,
immediate or scheduled; and settling the first request - whether it
resolves or rejects - removes the pending entry for the key. -/
theorem claim1_theorem (s : InterceptState) (m p : String) (n1 n2 pid : Nat)
    (hcb : s.circuitBreakerActive = false)
    (h1 : (intercept s m p n1).2 = CallResult.freshRequest pid) :
    (intercept (intercept s m p n1).1 m p n2).2 = CallResult.sharedPending pid ∧
    invokesUnderlyingNow (intercept (intercept s m p n1).1 m p n2).2 = false ∧
    schedulesUnderlying (intercept (intercept s m p n1).1 m p n2).2 = none ∧
    invokesUnderlyingNow (intercept s m p n1).2 = true ∧
    (∀ (o : Outcome) (t : Nat),
      lookupKV (settleFresh (intercept s m p n1).1 (mkKey m p) o t).1.pending
        (mkKey m p) = none) := by
  have hpend := intercept_fresh_pending s m p n1 pid h1
  have hcb1 : (intercept s m p n1).1.circuitBreakerActive = false := by
    rw [intercept_breaker]; exact hcb
  obtain ⟨ha, hb, hc⟩ := intercept_shared (intercept s m p n1).1 m p n2 pid hcb1 hpend
  refine ⟨ha, hb, hc, ?_, ?_⟩
  · rw [h1]; rfl
  · intro o t
    cases o <;> simp [settleFresh, lookupKV_eraseKV]

/-- The interceptor state after twelve eth_call requests with twelve
distinct params at time 0 from the initial state: the per-method
counter sits at 12, the eth_call limit. -/
def coalesceTrace : InterceptState :=
  (["[0]", "[1]", "[2]", "[3]", "[4]", "[5]", "[6]", "[7]", "[8]", "[9]", "[10]",
    "[11]"].foldl (fun st q => (intercept st "eth_call" q 0).1) initInterceptState)

/-- Counterexample to C1: from coalesceTrace, with the breaker Closed,
a 13th eth_call (params [99]) is over the per-method limit and takes
the debounce path, returning promise 12; a 14th identical call issued
while that one is still unresolved returns a different promise 14
(cancelling timer 13) instead of sharing the first one. -/
theorem claim1_counterexample :
    coalesceTrace.circuitBreakerActive = false ∧
    (intercept coalesceTrace "eth_call" "[99]" 0).2 = CallResult.debounced 12 none ∧
    (intercept (intercept coalesceTrace "eth_call" "[99]" 0).1 "eth_call" "[99]" 0).2 =
      CallResult.debounced 14 (some 13) ∧
    (intercept (intercept coalesceTrace "eth_call" "[99]" 0).1 "eth_call" "[99]" 0).2 ≠
      CallResult.sharedPending 12 ∧
    (14 : Nat) ≠ 12 := by
  refine ⟨by decide, by decide, by decide, by decide, by decide⟩

/-- Witness for C1 at the very first call from the initial state: it
takes the direct path with promise 0 and the second call shares it. -/
theorem claim1_witness :
    initInterceptState.circuitBreakerActive = false ∧
    (intercept initInterceptState "eth_call" "[]" 0).2 = CallResult.freshRequest 0 ∧
    ((intercept (intercept initInterceptState "eth_call" "[]" 0).1 "eth_call" "[]"
        1).2 = CallResult.sharedPending 0 ∧
      invokesUnderlyingNow (intercept (intercept initInterceptState "eth_call" "[]"
        0).1 "eth_call" "[]" 1).2 = false ∧
      schedulesUnderlying (intercept (intercept initInterceptState "eth_call" "[]"
        0).1 "eth_call" "[]" 1).2 = none ∧
      invokesUnderlyingNow (intercept initInterceptState "eth_call" "[]" 0).2 =
        true ∧
      (∀ (o : Outcome) (t : Nat),
        lookupKV (settleFresh (intercept initInterceptState "eth_call" "[]" 0).1
          (mkKey "eth_call" "[]") o t).1.pending (mkKey "eth_call" "[]") = none)) :=
  ⟨rfl, by decide,
   claim1_theorem initInterceptState "eth_call" "[]" 0 1 0 rfl (by decide)⟩

end DaoGov
